import Mathlib

/-!
Verification development for `src/tools/idevicescreenshot.c` of
libimobiledevice's `idevicescreenshot` tool.

The C tool is embedded shallowly:

* `get_image_filename` (lines 262-312) becomes a pure function over an
  explicit disk oracle `existsF : String → Bool` standing for `access(_, F_OK)`
  and a `timeBase` string standing for the `strftime`-formatted current time.
* the capture loop of `main` (lines 177-223) becomes a step function
  `iterate` over an explicit `LoopState` fed by per-iteration environment
  records `IterEnv` (capture outcome, `fopen`/`fwrite` outcomes, SIGINT
  delivery), iterated by `runLoop`.
* the command-line parsing loop of `main` (lines 72-119) becomes `parseArgs`.
* `main` itself, including the device / lockdownd / service / screenshotr
  setup and the exit code, becomes `mainModel` over a `ConnEnv` record of
  external-library outcomes.
-/

namespace Screenshot

/-- Model of C `atoi`: skip leading whitespace, read an optional sign and a
maximal run of decimal digits; the result is 0 when no digits follow. -/
def digitsVal (cs : List Char) : Int :=
  cs.foldl (fun acc c => acc * 10 + (Int.ofNat c.toNat - 48)) 0

/-- Model of C `atoi` on the full string (used for the `-r` value at line 92/96). -/
def atoiModel (s : String) : Int :=
  let cs := s.data.dropWhile (fun c => c = ' ' ∨ c = '\t' ∨ c = '\n' ∨ c = '\r' ∨ c = '\x0b' ∨ c = '\x0c')
  match cs with
  | '-' :: rest => - digitsVal (rest.takeWhile Char.isDigit)
  | '+' :: rest => digitsVal (rest.takeWhile Char.isDigit)
  | _ => digitsVal (cs.takeWhile Char.isDigit)

/-- Test at line 266-268 of `get_image_filename`:
`strrchr(*filename, '.')` finds a last dot and `strchr(last_dot, '/')` finds
no path separator at or after it.  Since the character at `last_dot` is `.`,
this is: the name contains a dot and the suffix after the last dot contains
no `/`. -/
def hasUsableExt (s : String) : Bool :=
  s.data.contains '.' && !((s.data.reverse.takeWhile (fun c => c ≠ '.')).contains '/')

/-- Magic-byte sniffing of lines 272-281: compare the first four bytes of the
image buffer against `\x89PNG` and `MM\x00*`; the second component records
whether the WARNING of line 279 is printed. -/
def sniffExt (img : List Nat) : String × Bool :=
  if img.take 4 = [0x89, 0x50, 0x4E, 0x47] then (".png", false)
  else if img.take 4 = [0x4D, 0x4D, 0x00, 0x2A] then (".tiff", false)
  else (".dat", true)

/-- Uniqueness-probing loop of lines 298-310.  `current` is the candidate held
in `unique_filename`, `i` the loop counter (started at 2 by line 301, bound
`i < (1 << 16)`); each step consults the disk oracle (`access`) on `current`,
returns it when it does not exist, and otherwise rebuilds
`basename-i fileext` (line 306) and continues.  The second component is the
list of candidates probed, in order. -/
def probeLoopAux (existsF : String → Bool) (base ext : String) :
    Nat → String → Nat → Option String × List String
  | 0, _, _ => (none, [])
  | fuel + 1, current, i =>
    if existsF current then
      let r := probeLoopAux existsF base ext fuel (base ++ "-" ++ toString i ++ ext) (i + 1)
      (r.1, current :: r.2)
    else (some current, [current])

/-- The probing loop entered at counter `i`: the fuel `65536 - i` counts the
iterations remaining before the `i < (1 << 16)` bound fails. -/
def probeLoop (existsF : String → Bool) (base ext current : String) (i : Nat) :
    Option String × List String :=
  probeLoopAux existsF base ext (65536 - i) current i

/-- Result of `get_image_filename`: the resolved name (`none` = exhaustion,
lines 308-310), the probed candidates, and whether the unknown-format warning
fired. -/
structure ResolveOut where
  filename : Option String
  probed : List String
  warned : Bool
deriving Repr, DecidableEq

/-- Shallow embedding of `get_image_filename` (lines 262-312).  `existsF`
models `access(_, F_OK) != -1`; `timeBase` models the
`screenshot-%Y-%m-%d-%H-%M-%S` string that `strftime` produces at line 294. -/
def get_image_filename (existsF : String → Bool) (timeBase : String)
    (img : List Nat) (filename : Option String) : ResolveOut :=
  match filename with
  | some name =>
    if hasUsableExt name then ⟨some name, [], false⟩
    else
      let se := sniffExt img
      let r := probeLoop existsF name se.1 (name ++ se.1) 2
      ⟨r.1, r.2, se.2⟩
  | none =>
    let se := sniffExt img
    let r := probeLoop existsF timeBase se.1 (timeBase ++ se.1) 2
    ⟨r.1, r.2, se.2⟩

/-- Closed-form candidate list that the probing loop examines when started
from `base ++ ext` with counter 2: `base.ext`, then `base-2.ext` up to
`base-65534.ext`. -/
def candidates (base ext : String) : List String :=
  (base ++ ext) :: (List.range' 2 65533).map (fun k => base ++ "-" ++ toString k ++ ext)

/-- Candidates probed from an arbitrary probe state: the current candidate
followed by `base-k.ext` for `k` from `i` up to `65534`. -/
def candList (base ext current : String) (i : Nat) : List String :=
  current :: (List.range' i (65535 - i)).map (fun k => base ++ "-" ++ toString k ++ ext)

/-- Prefix of a candidate list up to and including the first candidate the
disk oracle reports absent (all of it when every candidate exists). -/
def probedUpTo (existsF : String → Bool) : List String → List String
  | [] => []
  | c :: rest => if existsF c then c :: probedUpTo existsF rest else [c]

/-- Options accumulated by the argument-parsing loop of `main`
(lines 62-66 initialisations, lines 72-119 loop). -/
structure Cfg where
  debug : Bool
  udid : Option String
  network : Bool
  rate : Int
  join : Bool
  filename : Option String
deriving Repr, DecidableEq

/-- Initial option values of `main`: `rate = 0`, `join = 0`, `udid = NULL`,
`use_network = 0`, `filename = NULL`. -/
def initCfg : Cfg := ⟨false, none, false, 0, false, none⟩

/-- Outcome of the argument-parsing loop: `usage` and `version` are the
`print_usage(...); return 0;` and `printf(version); return 0;` exits; `proceed`
falls through to device setup with the accumulated options. -/
inductive ParseResult where
  | usage
  | version
  | proceed (cfg : Cfg)
deriving Repr, DecidableEq

/-- Shallow embedding of the `for (i = 1; i < argc; i++)` parsing loop
(lines 72-119), processing `argv[1..]`.  A missing or empty `-u`/`-r` value,
an `-r` value whose `atoi` is 0, an unmatched option (first character `-`),
or a second positional argument all take the `print_usage(...); return 0`
path. -/
def parseLoop : List String → Cfg → ParseResult
  | [], cfg => .proceed cfg
  | a :: rest, cfg =>
    if a = "-d" ∨ a = "--debug" then parseLoop rest { cfg with debug := true }
    else if a = "-u" ∨ a = "--udid" then
      match rest with
      | [] => .usage
      | v :: rest2 =>
        if v = "" then .usage else parseLoop rest2 { cfg with udid := some v }
    else if a = "-n" ∨ a = "--network" then parseLoop rest { cfg with network := true }
    else if a = "-r" ∨ a = "--rate" then
      match rest with
      | [] => .usage
      | v :: rest2 =>
        if v = "" ∨ atoiModel v = 0 then .usage
        else parseLoop rest2 { cfg with rate := atoiModel v }
    else if a = "-j" ∨ a = "--join" then parseLoop rest { cfg with join := true }
    else if a = "-h" ∨ a = "--help" then .usage
    else if a = "-v" ∨ a = "--version" then .version
    else if ¬a.data.head? = some '-' ∧ cfg.filename = none then
      parseLoop rest { cfg with filename := some a }
    else .usage

/-- Parsing of the whole argument vector after the program name. -/
def parseArgs (args : List String) : ParseResult := parseLoop args initCfg

/-- Known option strings of the parsing loop. -/
def knownFlags : List String :=
  ["-d", "--debug", "-u", "--udid", "-n", "--network", "-r", "--rate",
   "-j", "--join", "-h", "--help", "-v", "--version"]

/-- Per-iteration environment of the capture loop: the outcome of
`screenshotr_take_screenshot` together with the returned buffer, the disk
oracle and `strftime` result seen by `get_image_filename` this iteration,
the outcomes of `fopen` and of the full-length `fwrite`, and whether SIGINT
is delivered during the iteration. -/
structure IterEnv where
  captureOk : Bool
  img : List Nat
  existsF : String → Bool
  timeBase : String
  fopenOk : Bool
  writeOk : Bool
  sigint : Bool

/-- Observable actions of one pass through the loop body. -/
inductive Event where
  | captureAttempt
  | captureFailMsg
  | resolvedName (name : String)
  | resolveFatal
  | opened (path : String) (h : Nat)
  | openFail (path : String)
  | wroteOk (path : String) (h : Nat)
  | writeFail (path : String) (h : Nat)
  | closed (h : Nat)
deriving Repr, DecidableEq

/-- Mutable state of the capture loop: `stop_running`, `filename`, `result`,
`frame_no`, the current `FILE *f` (as a handle identifier), plus bookkeeping
of all currently-open handles (`openHandles`) and a fresh-handle counter. -/
structure LoopState where
  stop : Bool
  filename : Option String
  result : Int
  frameNo : Nat
  f : Option Nat
  nextH : Nat
  openHandles : List Nat
deriving Repr, DecidableEq

/-- Loop state on entry to the `while` loop: `stop_running = 0`,
`result = -1`, `frame_no = 0`, `f = NULL`, and the filename from the
command line. -/
def initLoopState (filename : Option String) : LoopState :=
  ⟨false, filename, -1, 0, none, 0, []⟩

/-- Model of `snprintf(final_filename, 256, filename, frame_no)` (line 196)
for format strings whose only conversion is an optional first `%d`: the
frame number is substituted for the first `%d`; a format with no `%d`
is reproduced unchanged.  `snprintf` truncates to 255 characters. -/
def substChars : List Char → Nat → List Char
  | [], _ => []
  | '%' :: 'd' :: rest, n => (toString n).data ++ rest
  | c :: rest, n => c :: substChars rest n

/-- String version of `substChars`, including the 256-byte truncation. -/
def substTemplate (t : String) (n : Nat) : String :=
  ⟨(substChars t.data n).take 255⟩

/-- Name written this iteration (lines 195-199): in rate mode
`snprintf(final_filename, 256, filename, frame_no)`, otherwise `filename`
itself. -/
def finalName (rate : Int) (s : LoopState) : String :=
  if rate ≠ 0 then substTemplate (s.filename.getD "") s.frameNo else s.filename.getD ""

/-- Open-and-write part of the loop body (lines 195-215), entered with the
filename already set: rate mode formats `filename` with the current
`frame_no` and post-increments it (line 196), one-shot mode uses `filename`
itself (line 198); `fopen` runs when `!join || !f` (lines 200-202); a full
`fwrite` sets `result = 0` (lines 204-206) and non-join then closes the
handle (line 211); a short `fwrite` logs and `break`s (lines 208-209),
skipping the `fclose`; a failed `fopen` logs and `break`s (lines 212-214). -/
def writePhase (rate : Int) (join : Bool) (s : LoopState) (e : IterEnv) :
    LoopState × List Event × Bool :=
  let final := finalName rate s
  let s2 := if rate ≠ 0 then { s with frameNo := s.frameNo + 1 } else s
  let afterOpen : LoopState × List Event :=
    if ¬join ∨ s2.f = none then
      if e.fopenOk then
        (⟨s2.stop, s2.filename, s2.result, s2.frameNo, some s2.nextH, s2.nextH + 1,
          s2.nextH :: s2.openHandles⟩,
         [Event.opened final s2.nextH])
      else ({ s2 with f := none }, [])
    else (s2, [])
  let s3 := afterOpen.1
  match s3.f with
  | some h =>
    if e.writeOk then
      if ¬join then
        (⟨s3.stop, s3.filename, 0, s3.frameNo, none, s3.nextH, s3.openHandles.erase h⟩,
         afterOpen.2 ++ [Event.wroteOk final h, Event.closed h], false)
      else ({ s3 with result := 0 }, afterOpen.2 ++ [Event.wroteOk final h], false)
    else (s3, afterOpen.2 ++ [Event.writeFail final h], true)
  | none => (s3, afterOpen.2 ++ [Event.openFail final], true)

/-- Shallow embedding of the body of the `while (!stop_running)` loop
(lines 178-221), without the top-of-loop `stop_running` test and without the
`if (!rate) break` (both live in `runLoop`).  Returns the successor state,
the events of the pass, and whether the body executed a `break`: a capture
failure (lines 216-219) logs and falls through with no `break`;
`get_image_filename` runs only when `filename` is still unset (lines
188-189), and its failure (lines 190-193) is FATAL and `break`s; otherwise
the open-and-write part `writePhase` runs. -/
def iterate (rate : Int) (join : Bool) (s : LoopState) (e : IterEnv) :
    LoopState × List Event × Bool :=
  if e.captureOk then
    match s.filename with
    | some _ =>
      let w := writePhase rate join s e
      (w.1, Event.captureAttempt :: w.2.1, w.2.2)
    | none =>
      let r := get_image_filename e.existsF e.timeBase e.img none
      match r.filename with
      | some name =>
        let w := writePhase rate join { s with filename := some name } e
        (w.1, Event.captureAttempt :: Event.resolvedName name :: w.2.1, w.2.2)
      | none => (s, [Event.captureAttempt, Event.resolveFatal], true)
  else (s, [Event.captureAttempt, Event.captureFailMsg], false)

/-- Events of the filename-resolution step (the `get_image_filename` call and
its FATAL failure). -/
def isResolveEvent : Event → Bool
  | .resolvedName _ => true
  | .resolveFatal => true
  | _ => false

/-- Events recording an `fwrite` call (full or short). -/
def isWriteEvent : Event → Bool
  | .wroteOk _ _ => true
  | .writeFail _ _ => true
  | _ => false

/-- Events recording a `screenshotr_take_screenshot` call. -/
def isCaptureAttempt : Event → Bool
  | .captureAttempt => true
  | _ => false

/-- File path an event touches, when it touches one. -/
def eventPath : Event → Option String
  | .opened p _ => some p
  | .openFail p => some p
  | .wroteOk p _ => some p
  | .writeFail p _ => some p
  | _ => none

/-- Handle bookkeeping is single-handled: the set of open handles is exactly
the current `f` when it is set and empty otherwise. -/
def handleInv (s : LoopState) : Prop :=
  match s.f with
  | some h => s.openHandles = [h]
  | none => s.openHandles = []

/-- State invariant at the top of a loop iteration: the handle bookkeeping is
single-handled and, in non-join mode, no handle is carried across iterations
(`f` is only non-null mid-iteration or after a `break`). -/
def stateInv (join : Bool) (s : LoopState) : Prop :=
  handleInv s ∧ (join = false → s.f = none)

/-- The SIGINT handler (lines 257-260): it only sets the stop flag. -/
def sigint_handler (s : LoopState) : LoopState := { s with stop := true }

/-- SIGINT delivered at any point during an iteration is observed only
through the flag: apply the handler to the post-iteration state. -/
def applySigint (e : IterEnv) (s : LoopState) : LoopState :=
  if e.sigint then sigint_handler s else s

/-- How a run of the loop ended: a `break` out of the body (including the
one-shot `if (!rate) break`), the `while (!stop_running)` test failing, or
the supplied finite environment prefix running out with the loop still
going. -/
inductive RunEnd where
  | broke
  | stopped
  | fuelOut
deriving Repr, DecidableEq

/-- The `while (!stop_running)` loop (lines 177-222) over a finite prefix of
per-iteration environments: test the stop flag at the top, run the body, fold
in any SIGINT delivered during the body, `break` when the body broke or when
`rate` is 0 (line 221). -/
def runLoop (rate : Int) (join : Bool) (s : LoopState) :
    List IterEnv → LoopState × List Event × RunEnd
  | [] => if s.stop then (s, [], .stopped) else (s, [], .fuelOut)
  | e :: rest =>
    if s.stop then (s, [], .stopped)
    else
      let step := iterate rate join s e
      let s2 := applySigint e step.1
      if step.2.2 ∨ rate = 0 then (s2, step.2.1, .broke)
      else
        let r := runLoop rate join s2 rest
        (r.1, step.2.1 ++ r.2.1, r.2.2)

/-- Epilogue of the loop (line 223): `if (join && f) fclose(f)`. -/
def finishRun (join : Bool) (s : LoopState) : LoopState × List Event :=
  match s.f with
  | some h =>
    if join then
      ({ s with f := none, openHandles := s.openHandles.erase h }, [Event.closed h])
    else (s, [])
  | none => (s, [])

/-- Outcomes of the external device-communication library and of the timer
setup calls in `main`. -/
structure ConnEnv where
  deviceFound : Bool
  lockdownOk : Bool
  serviceOk : Bool
  shotrOk : Bool
  pipeOk : Bool
  sigalrmOk : Bool
  sigintOk : Bool
  setitimerOk : Bool
deriving Repr, DecidableEq

/-- Result of a whole run of `main`. -/
inductive MainOutcome where
  | usageExit
  | versionExit
  | noDevice
  | lockdownFail
  | serviceFail
  | shotrFail
  | timerFail
  | ranLoop (final : LoopState) (trace : List Event) (ending : RunEnd)
deriving Repr, DecidableEq

/-- Process exit status of each outcome: the `return 0` of the usage/version
paths, the `return -1` of the setup failures, the `return result` at
line 236 (with `result` still `-1` on the service/screenshotr failure
paths). -/
def exitCode : MainOutcome → Int
  | .usageExit => 0
  | .versionExit => 0
  | .noDevice => -1
  | .lockdownFail => -1
  | .serviceFail => -1
  | .shotrFail => -1
  | .timerFail => -1
  | .ranLoop s _ _ => s.result

/-- Rest of `main` (lines 121-237) after argument parsing: the device /
lockdownd / service / screenshotr setup, in rate mode the pipe / sigaction /
setitimer setup, then the capture loop followed by the join-mode `fclose`. -/
def mainAfterParse (cfg : Cfg) (conn : ConnEnv) (envs : List IterEnv) : MainOutcome :=
  if ¬conn.deviceFound then .noDevice
  else if ¬conn.lockdownOk then .lockdownFail
  else if ¬conn.serviceOk then .serviceFail
  else if ¬conn.shotrOk then .shotrFail
  else if cfg.rate ≠ 0 ∧ ¬(conn.pipeOk ∧ conn.sigalrmOk ∧ conn.sigintOk ∧ conn.setitimerOk) then .timerFail
  else
    let r := runLoop cfg.rate cfg.join (initLoopState cfg.filename) envs
    let fin := finishRun cfg.join r.1
    .ranLoop fin.1 (r.2.1 ++ fin.2) r.2.2

/-- Shallow embedding of `main` as a whole: argument parsing then the rest. -/
def mainModel (args : List String) (conn : ConnEnv) (envs : List IterEnv) :
    MainOutcome :=
  match parseArgs args with
  | .usage => .usageExit
  | .version => .versionExit
  | .proceed cfg => mainAfterParse cfg conn envs

/-! Concrete environments used by witnesses and counterexamples. -/

/-- Disk oracle of an empty directory: no candidate exists. -/
def noFile : String → Bool := fun _ => false

/-- The 4-byte PNG magic prefix. -/
def pngBytes : List Nat := [0x89, 0x50, 0x4E, 0x47]

/-- Iteration in which the capture and the full write both succeed. -/
def envOkWrite : IterEnv := ⟨true, pngBytes, noFile, "screenshot-t", true, true, false⟩

/-- Iteration in which the capture succeeds but `fwrite` is short. -/
def envBadWrite : IterEnv := ⟨true, pngBytes, noFile, "screenshot-t", true, false, false⟩

/-- Successful iteration during which SIGINT is delivered. -/
def envOkSigint : IterEnv := ⟨true, pngBytes, noFile, "screenshot-t", true, true, true⟩

/-- Iteration in which `screenshotr_take_screenshot` fails. -/
def envNoCapture : IterEnv := ⟨false, pngBytes, noFile, "screenshot-t", true, true, false⟩

/-- Iteration in which the capture succeeds but `fopen` fails. -/
def envNoOpen : IterEnv := ⟨true, pngBytes, noFile, "screenshot-t", false, true, false⟩

/-- Every external setup call succeeds. -/
def connAllOk : ConnEnv := ⟨true, true, true, true, true, true, true, true⟩

/-- No device is found. -/
def connNoDevice : ConnEnv := ⟨false, true, true, true, true, true, true, true⟩

/-! Lemmas about the uniqueness-probing loop. -/

theorem candList_start (base ext : String) :
    candList base ext (base ++ ext) 2 = candidates base ext := rfl

theorem probeLoopAux_eq_find (existsF : String → Bool) (base ext : String) :
    ∀ n i current, i + n = 65536 → 0 < n →
      probeLoopAux existsF base ext n current i =
        ((candList base ext current i).find? (fun c => !existsF c),
         probedUpTo existsF (candList base ext current i)) := by
  intro n
  induction n with
  | zero => intro i current _ h2; exact absurd h2 (by omega)
  | succ m ih =>
    intro i current hi _
    by_cases hex : existsF current
    · rcases Nat.eq_zero_or_pos m with hm | hm
      · -- last iteration: i = 65535, the recursive call has no fuel left
        have hi' : i = 65535 := by omega
        subst hm
        subst hi'
        simp [probeLoopAux, candList, hex, List.find?, probedUpTo]
      · have hrec := ih (i + 1) (base ++ "-" ++ toString i ++ ext) (by omega) hm
        have hcl : candList base ext current i =
            current :: candList base ext (base ++ "-" ++ toString i ++ ext) (i + 1) := by
          have h1 : 65535 - i = (65535 - (i + 1)) + 1 := by omega
          simp only [candList, h1, List.range']
          simp
        simp only [probeLoopAux, hex, if_true, hrec, hcl]
        simp [List.find?, hex, probedUpTo]
    · simp [probeLoopAux, hex, candList, List.find?, probedUpTo]

theorem probeLoop_start_eq_find (existsF : String → Bool) (base ext : String) :
    probeLoop existsF base ext (base ++ ext) 2 =
      ((candidates base ext).find? (fun c => !existsF c),
       probedUpTo existsF (candidates base ext)) := by
  have h := probeLoopAux_eq_find existsF base ext 65534 2 (base ++ ext) (by omega) (by omega)
  unfold probeLoop
  rw [show (65536 - 2 : Nat) = 65534 from rfl, h, candList_start]

theorem candidates_length (base ext : String) :
    (candidates base ext).length = 65534 := by
  simp [candidates]

/-! Lemmas about the open-and-write part of the loop body. -/

theorem writePhase_result (rate : Int) (join : Bool) (s : LoopState) (e : IterEnv) :
    ((writePhase rate join s e).1.result = 0 ↔
      (s.result = 0 ∨ ∃ p h, Event.wroteOk p h ∈ (writePhase rate join s e).2.1)) := by
  unfold writePhase
  rcases hsf : s.f with _ | h0 <;>
    by_cases hr : rate = 0 <;> by_cases hj : join <;> by_cases ho : e.fopenOk <;>
    by_cases hw : e.writeOk <;> simp [hsf, hr, hj, ho, hw]

theorem writePhase_filename (rate : Int) (join : Bool) (s : LoopState) (e : IterEnv) :
    (writePhase rate join s e).1.filename = s.filename := by
  unfold writePhase
  rcases hsf : s.f with _ | h0 <;>
    by_cases hr : rate = 0 <;> by_cases hj : join <;> by_cases ho : e.fopenOk <;>
    by_cases hw : e.writeOk <;> simp [hsf, hr, hj, ho, hw]

theorem writePhase_stop (rate : Int) (join : Bool) (s : LoopState) (e : IterEnv) :
    (writePhase rate join s e).1.stop = s.stop := by
  unfold writePhase
  rcases hsf : s.f with _ | h0 <;>
    by_cases hr : rate = 0 <;> by_cases hj : join <;> by_cases ho : e.fopenOk <;>
    by_cases hw : e.writeOk <;> simp [hsf, hr, hj, ho, hw]

theorem writePhase_no_resolve (rate : Int) (join : Bool) (s : LoopState) (e : IterEnv) :
    ∀ ev ∈ (writePhase rate join s e).2.1, isResolveEvent ev = false := by
  unfold writePhase
  rcases hsf : s.f with _ | h0 <;>
    by_cases hr : rate = 0 <;> by_cases hj : join <;> by_cases ho : e.fopenOk <;>
    by_cases hw : e.writeOk <;> simp [hsf, hr, hj, ho, hw, isResolveEvent]

theorem writePhase_frameNo (rate : Int) (join : Bool) (s : LoopState) (e : IterEnv)
    (hr : rate ≠ 0) :
    (writePhase rate join s e).1.frameNo = s.frameNo + 1 := by
  unfold writePhase
  rcases hsf : s.f with _ | h0 <;>
    by_cases hj : join <;> by_cases ho : e.fopenOk <;>
    by_cases hw : e.writeOk <;> simp [hsf, hr, hj, ho, hw]

theorem writePhase_paths (rate : Int) (join : Bool) (s : LoopState) (e : IterEnv) :
    ∀ ev ∈ (writePhase rate join s e).2.1, ∀ p, eventPath ev = some p →
      p = finalName rate s := by
  unfold writePhase
  rcases hsf : s.f with _ | h0 <;>
    by_cases hr : rate = 0 <;> by_cases hj : join <;> by_cases ho : e.fopenOk <;>
    by_cases hw : e.writeOk <;> simp [hsf, hr, hj, ho, hw, eventPath]

theorem writePhase_openFail (rate : Int) (join : Bool) (s : LoopState) (e : IterEnv)
    (hopen : ¬join = true ∨ s.f = none) (ho : e.fopenOk = false) :
    (writePhase rate join s e).2.2 = true ∧
      Event.openFail (finalName rate s) ∈ (writePhase rate join s e).2.1 := by
  unfold writePhase
  rcases hopen with hj | hsf
  · simp only [Bool.not_eq_true] at hj
    by_cases hr : rate = 0 <;> rcases hsf : s.f with _ | h0 <;> simp [hr, hj, ho, hsf]
  · by_cases hr : rate = 0 <;> by_cases hj : join <;> simp [hr, hj, ho, hsf]

theorem writePhase_writeFail (rate : Int) (join : Bool) (s : LoopState) (e : IterEnv)
    (ho : e.fopenOk = true) (hw : e.writeOk = false) :
    (writePhase rate join s e).2.2 = true ∧
      ∃ h, Event.writeFail (finalName rate s) h ∈ (writePhase rate join s e).2.1 := by
  unfold writePhase
  rcases hsf : s.f with _ | h0 <;>
    by_cases hr : rate = 0 <;> by_cases hj : join <;> simp [hsf, hr, hj, ho, hw]

theorem writePhase_opened_mem (rate : Int) (join : Bool) (s : LoopState) (e : IterEnv)
    (hopen : ¬join = true ∨ s.f = none) (ho : e.fopenOk = true) :
    Event.opened (finalName rate s) s.nextH ∈ (writePhase rate join s e).2.1 := by
  unfold writePhase
  rcases hopen with hj | hsf
  · simp only [Bool.not_eq_true] at hj
    by_cases hr : rate = 0 <;> by_cases hw : e.writeOk <;> rcases hsf : s.f with _ | h0 <;>
      simp [hr, hj, ho, hw, hsf]
  · by_cases hr : rate = 0 <;> by_cases hj : join <;> by_cases hw : e.writeOk <;>
      simp [hr, hj, ho, hw, hsf]

theorem writePhase_counts (rate : Int) (join : Bool) (s : LoopState) (e : IterEnv) :
    (writePhase rate join s e).2.1.countP isCaptureAttempt = 0 ∧
    (writePhase rate join s e).2.1.countP isWriteEvent ≤ 1 := by
  unfold writePhase
  rcases hsf : s.f with _ | h0 <;>
    by_cases hr : rate = 0 <;> by_cases hj : join <;> by_cases ho : e.fopenOk <;>
    by_cases hw : e.writeOk <;>
    simp [hsf, hr, hj, ho, hw, isCaptureAttempt, isWriteEvent, List.countP_cons]

theorem writePhase_inv (rate : Int) (join : Bool) (s : LoopState) (e : IterEnv)
    (hinv : stateInv join s) :
    handleInv (writePhase rate join s e).1 ∧
      ((writePhase rate join s e).2.2 = false → stateInv join (writePhase rate join s e).1) := by
  obtain ⟨hh, hnj⟩ := hinv
  unfold writePhase
  rcases hsf : s.f with _ | h0
  · have hoh : s.openHandles = [] := by
      unfold handleInv at hh; rw [hsf] at hh; exact hh
    by_cases hr : rate = 0 <;> by_cases hj : join <;> by_cases ho : e.fopenOk <;>
      by_cases hw : e.writeOk <;>
      simp [hsf, hr, hj, ho, hw, hoh, handleInv, stateInv]
  · have hoh : s.openHandles = [h0] := by
      unfold handleInv at hh; rw [hsf] at hh; exact hh
    have hjt : join = true := by
      by_contra hjf
      simp only [Bool.not_eq_true] at hjf
      rw [hnj hjf] at hsf; exact Option.noConfusion hsf
    by_cases hr : rate = 0 <;> by_cases hw : e.writeOk <;>
      simp [hsf, hr, hjt, hw, hoh, handleInv, stateInv]

theorem writePhase_join_no_open (rate : Int) (s : LoopState) (e : IterEnv) (h0 : Nat)
    (hsf : s.f = some h0) :
    ∀ p k, Event.opened p k ∉ (writePhase rate true s e).2.1 := by
  unfold writePhase
  by_cases hr : rate = 0 <;> by_cases hw : e.writeOk <;> simp [hsf, hr, hw]

theorem writePhase_nonjoin_closes (rate : Int) (s : LoopState) (e : IterEnv)
    (hoh : s.openHandles = []) (hw : e.writeOk = true) :
    (writePhase rate false s e).1.openHandles = [] ∧
      (writePhase rate false s e).1.f = none := by
  unfold writePhase
  by_cases hr : rate = 0 <;> by_cases ho : e.fopenOk <;> rcases hsf : s.f with _ | h0 <;>
    simp [hr, ho, hw, hsf, hoh]

/-! Lemmas about the full loop body and the loop itself. -/

theorem runLoop_nil (rate : Int) (join : Bool) (s : LoopState) :
    runLoop rate join s [] =
      if s.stop then (s, [], .stopped) else (s, [], .fuelOut) := rfl

theorem runLoop_cons (rate : Int) (join : Bool) (s : LoopState) (e : IterEnv)
    (rest : List IterEnv) :
    runLoop rate join s (e :: rest) =
      if s.stop then (s, [], .stopped)
      else
        if (iterate rate join s e).2.2 ∨ rate = 0 then
          (applySigint e (iterate rate join s e).1, (iterate rate join s e).2.1, .broke)
        else
          ((runLoop rate join (applySigint e (iterate rate join s e).1) rest).1,
           (iterate rate join s e).2.1 ++
             (runLoop rate join (applySigint e (iterate rate join s e).1) rest).2.1,
           (runLoop rate join (applySigint e (iterate rate join s e).1) rest).2.2) := rfl

theorem iterate_result (rate : Int) (join : Bool) (s : LoopState) (e : IterEnv) :
    ((iterate rate join s e).1.result = 0 ↔
      (s.result = 0 ∨ ∃ p h, Event.wroteOk p h ∈ (iterate rate join s e).2.1)) := by
  unfold iterate
  by_cases hc : e.captureOk
  · rcases hf : s.filename with _ | t
    · rcases hres : (get_image_filename e.existsF e.timeBase e.img none).filename with _ | nm
      · simp [hc, hf, hres]
      · have hw := writePhase_result rate join { s with filename := some nm } e
        simp only [hc, if_true, hf, hres]
        rw [hw]
        simp
    · have hw := writePhase_result rate join s e
      simp only [hc, if_true, hf]
      rw [hw]
      simp
  · simp [hc]

theorem iterate_preserves_filename (rate : Int) (join : Bool) (s : LoopState)
    (e : IterEnv) (t : String) (hf : s.filename = some t) :
    (iterate rate join s e).1.filename = some t ∧
      ∀ ev ∈ (iterate rate join s e).2.1, isResolveEvent ev = false := by
  unfold iterate
  by_cases hc : e.captureOk
  · simp only [hc, if_true, hf]
    refine ⟨by rw [writePhase_filename]; exact hf, ?_⟩
    intro ev hev
    rcases List.mem_cons.mp hev with rfl | hev
    · rfl
    · exact writePhase_no_resolve rate join s e ev hev
  · simp only [hc, Bool.false_eq_true, if_false]
    refine ⟨hf, ?_⟩
    intro ev hev
    rcases List.mem_cons.mp hev with rfl | hev
    · rfl
    · rcases List.mem_singleton.mp hev with rfl
      rfl

theorem iterate_counts (rate : Int) (join : Bool) (s : LoopState) (e : IterEnv) :
    (iterate rate join s e).2.1.countP isCaptureAttempt = 1 ∧
    (iterate rate join s e).2.1.countP isWriteEvent ≤ 1 := by
  unfold iterate
  by_cases hc : e.captureOk
  · rcases hf : s.filename with _ | t
    · rcases hres : (get_image_filename e.existsF e.timeBase e.img none).filename with _ | nm
      · simp [hc, hf, hres, List.countP_cons, isCaptureAttempt, isWriteEvent]
      · have hw := writePhase_counts rate join { s with filename := some nm } e
        simp only [hc, if_true, hf, hres]
        simp [List.countP_cons, isCaptureAttempt, isWriteEvent, hw.1]
        exact hw.2
    · have hw := writePhase_counts rate join s e
      simp only [hc, if_true, hf]
      simp [List.countP_cons, isCaptureAttempt, isWriteEvent, hw.1]
      exact hw.2
  · simp [hc, List.countP_cons, isCaptureAttempt, isWriteEvent]

theorem iterate_paths (rate : Int) (join : Bool) (s : LoopState) (e : IterEnv)
    (t : String) (hr : rate ≠ 0) (hf : s.filename = some t) (hc : e.captureOk = true) :
    (∀ ev ∈ (iterate rate join s e).2.1, ∀ p, eventPath ev = some p →
      p = substTemplate t s.frameNo) ∧
    (iterate rate join s e).1.frameNo = s.frameNo + 1 := by
  unfold iterate
  simp only [hc, if_true, hf]
  have hfin : finalName rate s = substTemplate t s.frameNo := by
    simp [finalName, hf, hr]
  constructor
  · intro ev hev p hp
    rcases List.mem_cons.mp hev with rfl | hev
    · exact absurd hp (by simp [eventPath])
    · rw [← hfin]
      exact writePhase_paths rate join s e ev hev p hp
  · rw [writePhase_frameNo rate join s e hr]

theorem iterate_inv (rate : Int) (join : Bool) (s : LoopState) (e : IterEnv)
    (hinv : stateInv join s) :
    handleInv (iterate rate join s e).1 ∧
      ((iterate rate join s e).2.2 = false → stateInv join (iterate rate join s e).1) := by
  unfold iterate
  by_cases hc : e.captureOk
  · rcases hf : s.filename with _ | t
    · rcases hres : (get_image_filename e.existsF e.timeBase e.img none).filename with _ | nm
      · simp only [hc, if_true, hf, hres]
        exact ⟨hinv.1, fun _ => hinv⟩
      · have hinv2 : stateInv join { s with filename := some nm } := by
          obtain ⟨hh, hj⟩ := hinv
          exact ⟨by unfold handleInv at hh ⊢; exact hh, hj⟩
        have hw := writePhase_inv rate join { s with filename := some nm } e hinv2
        simp only [hc, if_true, hf, hres]
        exact hw
    · have hw := writePhase_inv rate join s e hinv
      simp only [hc, if_true, hf]
      exact hw
  · simp only [hc, Bool.false_eq_true, if_false]
    exact ⟨hinv.1, fun _ => hinv⟩

theorem iterate_ignores_sigint (rate : Int) (join : Bool) (s : LoopState)
    (e : IterEnv) (b : Bool) :
    iterate rate join s
        ⟨e.captureOk, e.img, e.existsF, e.timeBase, e.fopenOk, e.writeOk, b⟩ =
      iterate rate join s e := by
  cases e
  rfl

theorem applySigint_fields (e : IterEnv) (s : LoopState) :
    (applySigint e s).filename = s.filename ∧ (applySigint e s).result = s.result ∧
    (applySigint e s).f = s.f ∧ (applySigint e s).openHandles = s.openHandles ∧
    (applySigint e s).nextH = s.nextH ∧ (applySigint e s).frameNo = s.frameNo := by
  unfold applySigint sigint_handler
  split <;> exact ⟨rfl, rfl, rfl, rfl, rfl, rfl⟩

theorem applySigint_handleInv (e : IterEnv) (s : LoopState) (h : handleInv s) :
    handleInv (applySigint e s) := by
  unfold applySigint sigint_handler
  by_cases hsig : e.sigint = true
  · rw [if_pos hsig]
    unfold handleInv at h ⊢
    rcases hsf : s.f with _ | h0 <;> simp only [hsf] at h ⊢ <;> exact h
  · rw [if_neg hsig]
    exact h

theorem applySigint_stateInv (join : Bool) (e : IterEnv) (s : LoopState)
    (h : stateInv join s) : stateInv join (applySigint e s) := by
  obtain ⟨hh, hj⟩ := h
  refine ⟨applySigint_handleInv e s hh, ?_⟩
  intro hjf
  rw [(applySigint_fields e s).2.2.1]
  exact hj hjf

theorem runLoop_result (rate : Int) (join : Bool) :
    ∀ (envs : List IterEnv) (s : LoopState),
      ((runLoop rate join s envs).1.result = 0 ↔
        (s.result = 0 ∨ ∃ p h, Event.wroteOk p h ∈ (runLoop rate join s envs).2.1)) := by
  intro envs
  induction envs with
  | nil =>
    intro s
    unfold runLoop
    split <;> simp
  | cons e rest ih =>
    intro s
    unfold runLoop
    by_cases hs : s.stop
    · simp [hs]
    · simp only [hs, Bool.false_eq_true, if_false]
      by_cases hb : (iterate rate join s e).2.2 = true ∨ rate = 0
      · simp only [hb, if_true]
        rw [(applySigint_fields e (iterate rate join s e).1).2.1, iterate_result]
      · simp only [hb, if_false]
        rw [ih, (applySigint_fields e (iterate rate join s e).1).2.1, iterate_result]
        simp only [List.mem_append]
        constructor
        · rintro ((h | ⟨p, k, hm⟩) | ⟨p, k, hm⟩)
          · exact Or.inl h
          · exact Or.inr ⟨p, k, Or.inl hm⟩
          · exact Or.inr ⟨p, k, Or.inr hm⟩
        · rintro (h | ⟨p, k, hm | hm⟩)
          · exact Or.inl (Or.inl h)
          · exact Or.inl (Or.inr ⟨p, k, hm⟩)
          · exact Or.inr ⟨p, k, hm⟩

theorem runLoop_no_resolve (rate : Int) (join : Bool) :
    ∀ (envs : List IterEnv) (s : LoopState) (t : String), s.filename = some t →
      ∀ ev ∈ (runLoop rate join s envs).2.1, isResolveEvent ev = false := by
  intro envs
  induction envs with
  | nil =>
    intro s t _ ev hev
    unfold runLoop at hev
    split at hev <;> simp at hev
  | cons e rest ih =>
    intro s t hf ev hev
    unfold runLoop at hev
    by_cases hs : s.stop
    · simp [hs] at hev
    · simp only [hs, Bool.false_eq_true, if_false] at hev
      by_cases hb : (iterate rate join s e).2.2 = true ∨ rate = 0
      · simp only [hb, if_true] at hev
        exact (iterate_preserves_filename rate join s e t hf).2 ev hev
      · simp only [hb, if_false] at hev
        rcases List.mem_append.mp hev with hev | hev
        · exact (iterate_preserves_filename rate join s e t hf).2 ev hev
        · have hf2 : (applySigint e (iterate rate join s e).1).filename = some t := by
            rw [(applySigint_fields e (iterate rate join s e).1).1]
            exact (iterate_preserves_filename rate join s e t hf).1
          exact ih (applySigint e (iterate rate join s e).1) t hf2 ev hev

theorem runLoop_handleInv (rate : Int) (join : Bool) :
    ∀ (envs : List IterEnv) (s : LoopState), stateInv join s →
      handleInv (runLoop rate join s envs).1 := by
  intro envs
  induction envs with
  | nil =>
    intro s hinv
    unfold runLoop
    split <;> exact hinv.1
  | cons e rest ih =>
    intro s hinv
    unfold runLoop
    by_cases hs : s.stop
    · simp only [hs, if_true]
      exact hinv.1
    · simp only [hs, Bool.false_eq_true, if_false]
      by_cases hb : (iterate rate join s e).2.2 = true ∨ rate = 0
      · simp only [hb, if_true]
        exact applySigint_handleInv e _ (iterate_inv rate join s e hinv).1
      · simp only [hb, if_false]
        have hnb : (iterate rate join s e).2.2 = false := by
          rcases Bool.eq_false_or_eq_true (iterate rate join s e).2.2 with h | h
          · exact absurd (Or.inl h) hb
          · exact h
        exact ih _ (applySigint_stateInv join e _ ((iterate_inv rate join s e hinv).2 hnb))

/-! Lemmas about the loop epilogue and the whole of main. -/

theorem finishRun_shape (join : Bool) (s : LoopState) :
    (finishRun join s).1.result = s.result ∧
      ((finishRun join s).2 = [] ∨ ∃ h, (finishRun join s).2 = [Event.closed h]) := by
  rcases hsf : s.f with _ | h0
  · have h1 : finishRun join s = (s, []) := by
      unfold finishRun
      rw [hsf]
    rw [h1]
    exact ⟨rfl, Or.inl rfl⟩
  · by_cases hj : join = true
    · have h1 : finishRun join s =
          ({ s with f := none, openHandles := s.openHandles.erase h0 }, [Event.closed h0]) := by
        simp [finishRun, hsf, hj]
      rw [h1]
      exact ⟨rfl, Or.inr ⟨h0, rfl⟩⟩
    · have h1 : finishRun join s = (s, []) := by
        simp [finishRun, hsf, hj]
      rw [h1]
      exact ⟨rfl, Or.inl rfl⟩

theorem finishRun_join_closes (s : LoopState) (h : handleInv s) :
    (finishRun true s).1.openHandles = [] := by
  unfold finishRun
  unfold handleInv at h
  rcases hsf : s.f with _ | h0 <;> simp only [hsf] at h ⊢
  · exact h
  · simp [h]

theorem mainModel_ranLoop (args : List String) (conn : ConnEnv) (envs : List IterEnv)
    (s : LoopState) (tr : List Event) (en : RunEnd)
    (h : mainModel args conn envs = .ranLoop s tr en) :
    ∃ cfg, parseArgs args = .proceed cfg ∧
      s = (finishRun cfg.join (runLoop cfg.rate cfg.join (initLoopState cfg.filename) envs).1).1 ∧
      tr = (runLoop cfg.rate cfg.join (initLoopState cfg.filename) envs).2.1 ++
        (finishRun cfg.join (runLoop cfg.rate cfg.join (initLoopState cfg.filename) envs).1).2 ∧
      en = (runLoop cfg.rate cfg.join (initLoopState cfg.filename) envs).2.2 := by
  unfold mainModel at h
  rcases hp : parseArgs args with _ | _ | cfg <;> rw [hp] at h
  · exact absurd h (by simp)
  · exact absurd h (by simp)
  · refine ⟨cfg, rfl, ?_⟩
    have h2 : mainAfterParse cfg conn envs = .ranLoop s tr en := h
    unfold mainAfterParse at h2
    split at h2
    · exact absurd h2 (by simp)
    split at h2
    · exact absurd h2 (by simp)
    split at h2
    · exact absurd h2 (by simp)
    split at h2
    · exact absurd h2 (by simp)
    split at h2
    · exact absurd h2 (by simp)
    rw [MainOutcome.ranLoop.injEq] at h2
    exact ⟨h2.1.symm, h2.2.1.symm, h2.2.2.symm⟩

/-! Claim theorems. -/

/-- C4: for every image buffer handed to the filename resolver, a first-four-
bytes `\x89PNG` prefix selects extension `.png`, an `MM\x00*` prefix selects
`.tiff`, and any other prefix selects `.dat` together with the warning;
the resolver probes candidates carrying exactly the selected extension and
reports exactly the selected warning. -/
theorem C4_magic_sniffing (img : List Nat) :
    (img.take 4 = [0x89, 0x50, 0x4E, 0x47] → sniffExt img = (".png", false)) ∧
    (img.take 4 = [0x4D, 0x4D, 0x00, 0x2A] → sniffExt img = (".tiff", false)) ∧
    (img.take 4 ≠ [0x89, 0x50, 0x4E, 0x47] → img.take 4 ≠ [0x4D, 0x4D, 0x00, 0x2A] →
      sniffExt img = (".dat", true)) ∧
    (∀ existsF tb, (get_image_filename existsF tb img none).warned = (sniffExt img).2 ∧
      (get_image_filename existsF tb img none).probed =
        probedUpTo existsF (candidates tb (sniffExt img).1)) := by
  refine ⟨fun h1 => ?_, fun h2 => ?_, fun h1 h2 => ?_, fun existsF tb => ?_⟩
  · simp [sniffExt, h1]
  · by_cases h1 : img.take 4 = [0x89, 0x50, 0x4E, 0x47]
    · rw [h2] at h1; simp at h1
    · simp [sniffExt, h1, h2]
  · simp [sniffExt, h1, h2]
  · rw [show get_image_filename existsF tb img none =
        ⟨(probeLoop existsF tb (sniffExt img).1 (tb ++ (sniffExt img).1) 2).1,
         (probeLoop existsF tb (sniffExt img).1 (tb ++ (sniffExt img).1) 2).2,
         (sniffExt img).2⟩ from rfl, probeLoop_start_eq_find]
    exact ⟨rfl, rfl⟩

/-- Witness for C4 at the three concrete prefixes. -/
theorem C4_magic_sniffing_witness :
    sniffExt [0x89, 0x50, 0x4E, 0x47] = (".png", false) ∧
    sniffExt [0x4D, 0x4D, 0x00, 0x2A, 9] = (".tiff", false) ∧
    sniffExt [0, 1, 2, 3] = (".dat", true) :=
  ⟨(C4_magic_sniffing [0x89, 0x50, 0x4E, 0x47]).1 (by decide),
   (C4_magic_sniffing [0x4D, 0x4D, 0x00, 0x2A, 9]).2.1 (by decide),
   (C4_magic_sniffing [0, 1, 2, 3]).2.2.1 (by decide) (by decide)⟩

/-- C3: for every image buffer and base name lacking a usable extension, the
resolver probes `base.ext`, `base-2.ext`, `base-3.ext`, … in that order,
performing 65534 probes (within the 65536 bound of the loop counter), returns
the first candidate the disk oracle reports absent, and produces no filename
exactly when every probed candidate exists. -/
theorem C3_unique_probing (existsF : String → Bool) (tb : String) (img : List Nat)
    (name : String) (h : hasUsableExt name = false) :
    (get_image_filename existsF tb img (some name)).filename =
      (candidates name (sniffExt img).1).find? (fun c => !existsF c) ∧
    (get_image_filename existsF tb img (some name)).probed =
      probedUpTo existsF (candidates name (sniffExt img).1) ∧
    candidates name (sniffExt img).1 =
      (name ++ (sniffExt img).1) ::
        (List.range' 2 65533).map (fun k => name ++ "-" ++ toString k ++ (sniffExt img).1) ∧
    (candidates name (sniffExt img).1).length = 65534 ∧
    (candidates name (sniffExt img).1).length ≤ 65536 ∧
    ((get_image_filename existsF tb img (some name)).filename = none ↔
      ∀ c ∈ candidates name (sniffExt img).1, existsF c = true) := by
  have hres : get_image_filename existsF tb img (some name) =
      ⟨(candidates name (sniffExt img).1).find? (fun c => !existsF c),
       probedUpTo existsF (candidates name (sniffExt img).1),
       (sniffExt img).2⟩ := by
    unfold get_image_filename
    simp only [h, Bool.false_eq_true, if_false]
    rw [probeLoop_start_eq_find]
  refine ⟨by rw [hres], by rw [hres], rfl, candidates_length name _,
    by rw [candidates_length]; omega, ?_⟩
  rw [hres]
  simp [List.find?_eq_none]

/-- Witness for C3: base `shot` with PNG bytes against a disk on which only
`shot.png` exists. -/
theorem C3_unique_probing_witness :
    hasUsableExt "shot" = false ∧
    (get_image_filename (fun s => s = "shot.png") "tb" pngBytes (some "shot")).filename =
      (candidates "shot" (sniffExt pngBytes).1).find?
        (fun c => !(fun s => s = "shot.png") c) :=
  ⟨by decide, (C3_unique_probing (fun s => s = "shot.png") "tb" pngBytes "shot" (by decide)).1⟩

/-- C10: a base name containing a dot with no path separator after the last
dot is returned unchanged by the resolver — for every disk oracle, so no
existence check is made and no probing happens — and the subsequent one-shot
write opens exactly that path. -/
theorem C10_extension_kept (existsF : String → Bool) (tb : String) (img : List Nat)
    (name : String) (h : hasUsableExt name = true) :
    get_image_filename existsF tb img (some name) = ⟨some name, [], false⟩ ∧
    (∀ (join : Bool) (s : LoopState) (e : IterEnv),
      s.filename = some name → s.f = none → e.captureOk = true → e.fopenOk = true →
      Event.opened name s.nextH ∈ (iterate 0 join s e).2.1) := by
  constructor
  · unfold get_image_filename
    simp [h]
  · intro join s e hf hfn hc ho
    have hm := writePhase_opened_mem 0 join s e (Or.inr hfn) ho
    have hfin : finalName 0 s = name := by simp [finalName, hf]
    rw [hfin] at hm
    unfold iterate
    simp only [hc, if_true, hf]
    exact List.mem_cons_of_mem _ hm

/-- Witness for C10: base `out.png` on a disk where every path exists; the
resolver still returns it unchanged with no probe. -/
theorem C10_extension_kept_witness :
    hasUsableExt "out.png" = true ∧
    get_image_filename (fun _ => true) "tb" [0, 1, 2, 3] (some "out.png") =
      ⟨some "out.png", [], false⟩ :=
  ⟨by decide, (C10_extension_kept (fun _ => true) "tb" [0, 1, 2, 3] "out.png" (by decide)).1⟩

/-- C9 counterexample: the rate value `-5` is not a positive integer, yet the
parser accepts it (`atoi` returns the nonzero `-5`), no usage text is taken,
and the run proceeds to the device lookup — here failing with exit `-1`,
not 0. -/
theorem C9_counterexample :
    atoiModel "-5" = -5 ∧
    parseArgs ["-r", "-5"] = .proceed ⟨false, none, false, -5, false, none⟩ ∧
    mainModel ["-r", "-5"] connNoDevice [] = .noDevice ∧
    exitCode (mainModel ["-r", "-5"] connNoDevice []) = -1 := by
  refine ⟨by decide, by decide, ?_, ?_⟩ <;> rfl

/-- C9 as amended: an unknown option (a `-`-prefixed token in option position
matching no known option), a missing `-u`/`-r` value, an empty `-u` value, or
an `-r` value whose `atoi` is 0 all take the usage path, which exits with
status 0 before any device connection; but an `-r` value whose `atoi` is any
nonzero integer — including a negative one — is accepted as the rate and the
run proceeds. -/
theorem C9_amended :
    (∀ (a : String) (rest : List String) (cfg : Cfg),
      a.data.head? = some '-' → a ∉ knownFlags → parseLoop (a :: rest) cfg = .usage) ∧
    (∀ cfg : Cfg, parseLoop ["-u"] cfg = .usage ∧ parseLoop ["-r"] cfg = .usage) ∧
    (∀ (rest : List String) (cfg : Cfg), parseLoop ("-u" :: "" :: rest) cfg = .usage) ∧
    (∀ (v : String) (rest : List String) (cfg : Cfg), atoiModel v = 0 →
      parseLoop ("-r" :: v :: rest) cfg = .usage) ∧
    (∀ (v : String) (rest : List String) (cfg : Cfg), v ≠ "" → atoiModel v ≠ 0 →
      parseLoop ("-r" :: v :: rest) cfg = parseLoop rest { cfg with rate := atoiModel v }) ∧
    (∀ (args : List String) (conn : ConnEnv) (envs : List IterEnv),
      parseArgs args = .usage → mainModel args conn envs = .usageExit ∧
        exitCode (mainModel args conn envs) = 0) := by
  refine ⟨?_, ?_, ?_, ?_, ?_, ?_⟩
  · intro a rest cfg hdash hunk
    simp only [knownFlags, List.mem_cons, List.mem_singleton, not_or] at hunk
    obtain ⟨h1, h2, h3, h4, h5, h6, h7, h8, h9, h10, h11, h12, h13, h14⟩ := hunk
    unfold parseLoop
    simp [h1, h2, h3, h4, h5, h6, h7, h8, h9, h10, h11, h12, h13, h14, hdash]
  · intro cfg
    constructor <;> rfl
  · intro rest cfg
    rfl
  · intro v rest cfg hv
    unfold parseLoop
    by_cases hve : v = "" <;> simp [hv, hve]
  · intro v rest cfg hve hv
    simp [parseLoop, hv, hve]
  · intro args conn envs hp
    unfold mainModel
    rw [hp]
    exact ⟨rfl, rfl⟩

/-- Witness for C9 as amended: the unknown flag `-x`, missing and malformed
values, a zero rate, and the accepted negative rate, all at concrete
arguments. -/
theorem C9_amended_witness :
    parseLoop ["-x"] initCfg = .usage ∧
    parseLoop ["-r"] initCfg = .usage ∧
    parseLoop ["-r", "0"] initCfg = .usage ∧
    parseLoop ["-r", "-5"] initCfg = parseLoop [] { initCfg with rate := atoiModel "-5" } ∧
    mainModel ["-x"] connAllOk [] = .usageExit :=
  ⟨C9_amended.1 "-x" [] initCfg (by decide) (by decide),
   (C9_amended.2.1 initCfg).2,
   C9_amended.2.2.2.1 "0" [] initCfg (by decide),
   C9_amended.2.2.2.2.1 "-5" [] initCfg (by decide) (by decide),
   (C9_amended.2.2.2.2.2 ["-x"] connAllOk []
     (C9_amended.1 "-x" [] initCfg (by decide) (by decide))).1⟩

/-- C1 counterexample: a periodic join run whose first frame writes fully and
whose second frame hits a short `fwrite` ends with the fatal-write `break`
(the loop trace ends in the write failure, the epilogue merely closes the
handle), yet the process exits with status 0, because `result` was already 0
from the earlier successful write. -/
theorem C1_counterexample :
    mainModel ["-r", "1", "-j", "out.dat"] connAllOk [envOkWrite, envBadWrite] =
      .ranLoop ⟨false, some "out.dat", 0, 2, none, 1, []⟩
        [Event.captureAttempt, Event.opened "out.dat" 0, Event.wroteOk "out.dat" 0,
         Event.captureAttempt, Event.writeFail "out.dat" 0, Event.closed 0] .broke ∧
    exitCode (mainModel ["-r", "1", "-j", "out.dat"] connAllOk [envOkWrite, envBadWrite]) = 0 := by
  constructor
  · rfl
  · rfl

/-- C1 as amended: a run that reaches the capture loop exits with status 0
exactly when at least one full `fwrite` succeeded during the run; the
usage/version paths exit 0; device-not-found, lockdownd failure,
service/screenshotr failure and timer-setup failure exit -1.  In particular a
run ending in a fatal write failure exits nonzero only when no earlier write
of the same run succeeded. -/
theorem C1_amended (args : List String) (conn : ConnEnv) (envs : List IterEnv)
    (s : LoopState) (tr : List Event) (en : RunEnd)
    (h : mainModel args conn envs = .ranLoop s tr en) :
    (exitCode (mainModel args conn envs) = 0 ↔ ∃ p k, Event.wroteOk p k ∈ tr) ∧
    exitCode .noDevice = -1 ∧ exitCode .lockdownFail = -1 ∧ exitCode .serviceFail = -1 ∧
    exitCode .shotrFail = -1 ∧ exitCode .timerFail = -1 ∧
    exitCode .usageExit = 0 ∧ exitCode .versionExit = 0 := by
  refine ⟨?_, rfl, rfl, rfl, rfl, rfl, rfl, rfl⟩
  obtain ⟨cfg, hp, hs, htr, hen⟩ := mainModel_ranLoop args conn envs s tr en h
  rw [h]
  show s.result = 0 ↔ _
  rw [hs, (finishRun_shape cfg.join _).1, htr]
  rw [runLoop_result]
  constructor
  · rintro (h0 | ⟨p, k, hm⟩)
    · rw [show (initLoopState cfg.filename).result = -1 from rfl] at h0
      exact absurd h0 (by decide)
    · exact ⟨p, k, List.mem_append.mpr (Or.inl hm)⟩
  · rintro ⟨p, k, hm⟩
    rcases List.mem_append.mp hm with hm | hm
    · exact Or.inr ⟨p, k, hm⟩
    · rcases (finishRun_shape cfg.join _).2 with hfe | ⟨h0, hfe⟩
      · rw [hfe] at hm
        exact absurd hm (List.not_mem_nil _)
      · rw [hfe] at hm
        rcases List.mem_singleton.mp hm with h1
        exact absurd h1 (by simp)

/-- Witness for C1 as amended: a one-shot run whose single write succeeds
exits 0, and its trace contains the successful write. -/
theorem C1_amended_witness :
    mainModel ["shot.png"] connAllOk [envOkWrite] =
      .ranLoop ⟨false, some "shot.png", 0, 0, none, 1, []⟩
        [Event.captureAttempt, Event.opened "shot.png" 0, Event.wroteOk "shot.png" 0,
         Event.closed 0] .broke ∧
    (exitCode (mainModel ["shot.png"] connAllOk [envOkWrite]) = 0 ↔
      ∃ p k, Event.wroteOk p k ∈
        [Event.captureAttempt, Event.opened "shot.png" 0, Event.wroteOk "shot.png" 0,
         Event.closed 0]) :=
  ⟨rfl, (C1_amended ["shot.png"] connAllOk [envOkWrite] _ _ _ rfl).1⟩

/-- C2 counterexample: a periodic run with no command-line filename performs
filename resolution (magic-byte sniffing of the PNG prefix and uniqueness
probing on the synthesized time-based name) on its first successful capture:
the trace of this rate-mode run contains the resolution event. -/
theorem C2_counterexample :
    mainModel ["-r", "1"] connAllOk [envOkSigint] =
      .ranLoop ⟨true, some "screenshot-t.png", 0, 1, none, 1, []⟩
        [Event.captureAttempt, Event.resolvedName "screenshot-t.png",
         Event.opened "screenshot-t.png" 0, Event.wroteOk "screenshot-t.png" 0,
         Event.closed 0] .stopped ∧
    Event.resolvedName "screenshot-t.png" ∈
      [Event.captureAttempt, Event.resolvedName "screenshot-t.png",
       Event.opened "screenshot-t.png" 0, Event.wroteOk "screenshot-t.png" 0,
       Event.closed 0] ∧
    isResolveEvent (Event.resolvedName "screenshot-t.png") = true := by
  refine ⟨rfl, ?_, rfl⟩
  exact List.mem_cons_of_mem _ (List.mem_cons_self _ _)

/-- C2 as amended: in every mode, once the filename is set it persists and no
resolution event is ever produced — in particular, in rate mode with a
user-supplied filename, resolution (sniffing, timestamp synthesis, probing)
is never performed; and in rate mode every per-frame path is produced by
substituting the current frame counter into the filename template, which is
then post-incremented.  (When no filename is supplied, resolution runs on the
first successful capture and its result becomes the template.) -/
theorem C2_amended (rate : Int) (join : Bool) (s : LoopState) (e : IterEnv)
    (envs : List IterEnv) (t : String) :
    (s.filename = some t → (iterate rate join s e).1.filename = some t ∧
      ∀ ev ∈ (iterate rate join s e).2.1, isResolveEvent ev = false) ∧
    (s.filename = some t → ∀ ev ∈ (runLoop rate join s envs).2.1, isResolveEvent ev = false) ∧
    (rate ≠ 0 → s.filename = some t → e.captureOk = true →
      (∀ ev ∈ (iterate rate join s e).2.1, ∀ p, eventPath ev = some p →
        p = substTemplate t s.frameNo) ∧ (iterate rate join s e).1.frameNo = s.frameNo + 1) :=
  ⟨fun hf => iterate_preserves_filename rate join s e t hf,
   fun hf => runLoop_no_resolve rate join envs s t hf,
   fun hr hf hc => iterate_paths rate join s e t hr hf hc⟩

/-- Witness for C2 as amended: with template `f-%d.png` and frame counter 0
the iteration opens and writes `f-0.png`, keeps the template, and produces no
resolution event. -/
theorem C2_amended_witness :
    (iterate 1 false (initLoopState (some "f-%d.png")) envOkWrite).1.filename =
      some "f-%d.png" ∧
    isResolveEvent (Event.opened "f-0.png" 0) = false ∧
    "f-0.png" = substTemplate "f-%d.png" 0 := by
  have h := C2_amended 1 false (initLoopState (some "f-%d.png")) envOkWrite [] "f-%d.png"
  refine ⟨(h.1 rfl).1, ?_, ?_⟩
  · exact (h.1 rfl).2 (Event.opened "f-0.png" 0) (by decide)
  · exact (h.2.2 (by decide) rfl rfl).1 (Event.opened "f-0.png" 0) (by decide)
      "f-0.png" rfl

/-- C5: in periodic mode a capture failure only logs and the loop goes on to
the remaining iterations unchanged, while a file-open failure or a
partial-write failure makes the loop end immediately with a `break`, its
trace containing the corresponding failure event for the frame path. -/
theorem C5_periodic_failures (rate : Int) (join : Bool) (s : LoopState) (e : IterEnv)
    (rest : List IterEnv) (t : String) (hr : rate ≠ 0) (hs : s.stop = false) :
    (e.captureOk = false → e.sigint = false →
      runLoop rate join s (e :: rest) =
        ((runLoop rate join s rest).1,
         Event.captureAttempt :: Event.captureFailMsg :: (runLoop rate join s rest).2.1,
         (runLoop rate join s rest).2.2)) ∧
    (s.filename = some t → e.captureOk = true → e.fopenOk = false →
      (¬join = true ∨ s.f = none) →
      (runLoop rate join s (e :: rest)).2.2 = .broke ∧
      Event.openFail (substTemplate t s.frameNo) ∈ (runLoop rate join s (e :: rest)).2.1) ∧
    (s.filename = some t → e.captureOk = true → e.fopenOk = true → e.writeOk = false →
      (runLoop rate join s (e :: rest)).2.2 = .broke ∧
      ∃ k, Event.writeFail (substTemplate t s.frameNo) k ∈
        (runLoop rate join s (e :: rest)).2.1) := by
  refine ⟨?_, ?_, ?_⟩
  · intro hcap hsig
    have hit : iterate rate join s e = (s, [Event.captureAttempt, Event.captureFailMsg], false) := by
      unfold iterate
      simp [hcap]
    rw [runLoop_cons, hit]
    simp [hs, hr, applySigint, hsig]
  · intro hf hc ho hopen
    have hw := writePhase_openFail rate join s e hopen ho
    have hfin : finalName rate s = substTemplate t s.frameNo := by
      simp [finalName, hf, hr]
    have hit1 : (iterate rate join s e).2.2 = true := by
      unfold iterate
      simp only [hc, if_true, hf]
      exact hw.1
    have hit2 : Event.openFail (substTemplate t s.frameNo) ∈ (iterate rate join s e).2.1 := by
      unfold iterate
      simp only [hc, if_true, hf]
      exact List.mem_cons_of_mem _ (hfin ▸ hw.2)
    rw [runLoop_cons]
    simp only [hs, Bool.false_eq_true, if_false, hit1, true_or, if_true]
    exact ⟨by simp, hit2⟩
  · intro hf hc ho hw0
    have hw := writePhase_writeFail rate join s e ho hw0
    have hfin : finalName rate s = substTemplate t s.frameNo := by
      simp [finalName, hf, hr]
    have hit1 : (iterate rate join s e).2.2 = true := by
      unfold iterate
      simp only [hc, if_true, hf]
      exact hw.1
    obtain ⟨k, hk⟩ := hw.2
    have hit2 : Event.writeFail (substTemplate t s.frameNo) k ∈ (iterate rate join s e).2.1 := by
      unfold iterate
      simp only [hc, if_true, hf]
      exact List.mem_cons_of_mem _ (hfin ▸ hk)
    rw [runLoop_cons]
    simp only [hs, Bool.false_eq_true, if_false, hit1, true_or, if_true]
    exact ⟨by simp, k, hit2⟩

/-- Witness for C5 at rate 1 with filename `a.png`: a capture failure leaves
the loop running, while an open failure and a short write both end it. -/
theorem C5_periodic_failures_witness :
    (runLoop 1 false (initLoopState (some "a.png")) [envNoCapture] =
      ((runLoop 1 false (initLoopState (some "a.png")) []).1,
       Event.captureAttempt :: Event.captureFailMsg ::
         (runLoop 1 false (initLoopState (some "a.png")) []).2.1,
       (runLoop 1 false (initLoopState (some "a.png")) []).2.2)) ∧
    (runLoop 1 false (initLoopState (some "a.png")) [envNoOpen]).2.2 = .broke ∧
    (runLoop 1 false (initLoopState (some "a.png")) [envBadWrite]).2.2 = .broke :=
  ⟨(C5_periodic_failures 1 false (initLoopState (some "a.png")) envNoCapture [] "a.png"
      (by decide) rfl).1 rfl rfl,
   ((C5_periodic_failures 1 false (initLoopState (some "a.png")) envNoOpen [] "a.png"
      (by decide) rfl).2.1 rfl rfl rfl (Or.inr rfl)).1,
   ((C5_periodic_failures 1 false (initLoopState (some "a.png")) envBadWrite [] "a.png"
      (by decide) rfl).2.2 rfl rfl rfl rfl).1⟩

/-- C6: the SIGINT handler only sets the stop flag; the effects of a loop
iteration do not depend on whether SIGINT was delivered during it; and when
SIGINT arrives during a non-breaking periodic iteration, that iteration
completes (its events stand) and the loop stops right before the next
iteration would start, whatever environments remain. -/
theorem C6_sigint_cooperative (rate : Int) (join : Bool) (s : LoopState) (e : IterEnv)
    (rest : List IterEnv) (b : Bool) :
    sigint_handler s = { s with stop := true } ∧
    iterate rate join s ⟨e.captureOk, e.img, e.existsF, e.timeBase, e.fopenOk, e.writeOk, b⟩ =
      iterate rate join s e ∧
    (s.stop = false → e.sigint = true → (iterate rate join s e).2.2 = false → rate ≠ 0 →
      runLoop rate join s (e :: rest) =
        (sigint_handler (iterate rate join s e).1, (iterate rate join s e).2.1, .stopped)) := by
  refine ⟨rfl, iterate_ignores_sigint rate join s e b, ?_⟩
  intro hs hsig hnb hr
  have hstop : (applySigint e (iterate rate join s e).1).stop = true := by
    unfold applySigint
    rw [if_pos hsig]
    rfl
  have hrest : runLoop rate join (applySigint e (iterate rate join s e).1) rest =
      (applySigint e (iterate rate join s e).1, [], .stopped) := by
    cases rest
    · rw [runLoop_nil, if_pos hstop]
    · rw [runLoop_cons, if_pos hstop]
  rw [runLoop_cons]
  simp only [hs, Bool.false_eq_true, if_false, hnb, hr, false_or, or_self, hrest]
  simp [applySigint, hsig]

/-- Witness for C6: SIGINT during the first (successful, non-breaking)
iteration of a rate-1 run makes the loop finish exactly that iteration. -/
theorem C6_sigint_cooperative_witness :
    runLoop 1 false (initLoopState (some "a.png")) [envOkSigint] =
      (sigint_handler (iterate 1 false (initLoopState (some "a.png")) envOkSigint).1,
       (iterate 1 false (initLoopState (some "a.png")) envOkSigint).2.1, .stopped) :=
  (C6_sigint_cooperative 1 false (initLoopState (some "a.png")) envOkSigint [] true).2.2
    rfl rfl rfl (by decide)

/-- C7: with no rate, the loop runs its body exactly once — whatever the
capture and write outcomes and whatever environments would follow — so the
run makes exactly one capture attempt and at most one write. -/
theorem C7_oneshot (join : Bool) (s : LoopState) (e : IterEnv) (rest : List IterEnv)
    (hs : s.stop = false) :
    runLoop 0 join s (e :: rest) =
      (applySigint e (iterate 0 join s e).1, (iterate 0 join s e).2.1, .broke) ∧
    (iterate 0 join s e).2.1.countP isCaptureAttempt = 1 ∧
    (iterate 0 join s e).2.1.countP isWriteEvent ≤ 1 := by
  refine ⟨?_, (iterate_counts 0 join s e).1, (iterate_counts 0 join s e).2⟩
  rw [runLoop_cons]
  simp [hs]

/-- Witness for C7: a one-shot run given two pending environments still stops
after the first body pass, with one capture attempt counted. -/
theorem C7_oneshot_witness :
    runLoop 0 false (initLoopState (some "a.png")) [envOkWrite, envOkWrite] =
      (applySigint envOkWrite (iterate 0 false (initLoopState (some "a.png")) envOkWrite).1,
       (iterate 0 false (initLoopState (some "a.png")) envOkWrite).2.1, .broke) ∧
    (iterate 0 false (initLoopState (some "a.png")) envOkWrite).2.1.countP
      isCaptureAttempt = 1 :=
  ⟨(C7_oneshot false (initLoopState (some "a.png")) envOkWrite [envOkWrite] rfl).1,
   (C7_oneshot false (initLoopState (some "a.png")) envOkWrite [envOkWrite] rfl).2.1⟩

/-- C8 counterexample: in non-join one-shot mode a short `fwrite` `break`s
before the `fclose`, so the handle opened in that iteration is still open
when the run ends — it outlives its iteration. -/
theorem C8_counterexample :
    mainModel ["shot.png"] connAllOk [envBadWrite] =
      .ranLoop ⟨false, some "shot.png", -1, 0, some 0, 1, [0]⟩
        [Event.captureAttempt, Event.opened "shot.png" 0, Event.writeFail "shot.png" 0]
        .broke ∧
    LoopState.openHandles ⟨false, some "shot.png", -1, 0, some 0, 1, [0]⟩ ≠ [] := by
  exact ⟨rfl, by decide⟩

/-- C8 as amended: at most one handle is ever live (in either mode); in join
mode a live handle is never re-opened and the epilogue closes it, so no
handle survives the run; in non-join mode the handle of every fully-written
frame is closed within its iteration, but on a partial-write failure the
`break` skips the `fclose` and the handle stays open past the loop. -/
theorem C8_amended (rate : Int) (join : Bool) (s : LoopState) (e : IterEnv)
    (envs : List IterEnv) (k : Nat) :
    (stateInv join s → handleInv (iterate rate join s e).1) ∧
    (stateInv join s → handleInv (runLoop rate join s envs).1) ∧
    (handleInv s → s.openHandles.length ≤ 1) ∧
    (handleInv s → (finishRun true s).1.openHandles = []) ∧
    (s.f = some k → ∀ p n, Event.opened p n ∉ (iterate rate true s e).2.1) ∧
    (s.openHandles = [] → e.writeOk = true →
      (iterate rate false s e).1.openHandles = []) := by
  refine ⟨fun hinv => (iterate_inv rate join s e hinv).1,
    fun hinv => runLoop_handleInv rate join envs s hinv, ?_, finishRun_join_closes s, ?_, ?_⟩
  · intro hh
    unfold handleInv at hh
    rcases hsf : s.f with _ | h0 <;> rw [hsf] at hh <;> rw [hh] <;> simp
  · intro hsf p n
    unfold iterate
    by_cases hc : e.captureOk
    · rcases hf : s.filename with _ | t
      · rcases hres : (get_image_filename e.existsF e.timeBase e.img none).filename with _ | nm
        · simp [hc, hf, hres]
        · simp only [hc, if_true, hf, hres]
          intro hmem
          rcases List.mem_cons.mp hmem with h1 | hmem
          · exact Event.noConfusion h1
          rcases List.mem_cons.mp hmem with h1 | hmem
          · exact Event.noConfusion h1
          · exact writePhase_join_no_open rate { s with filename := some nm } e k hsf p n hmem
      · simp only [hc, if_true, hf]
        intro hmem
        rcases List.mem_cons.mp hmem with h1 | hmem
        · exact Event.noConfusion h1
        · exact writePhase_join_no_open rate s e k hsf p n hmem
    · simp [hc]
  · intro hoh hw
    unfold iterate
    by_cases hc : e.captureOk
    · rcases hf : s.filename with _ | t
      · rcases hres : (get_image_filename e.existsF e.timeBase e.img none).filename with _ | nm
        · simp only [hc, if_true, hf, hres]
          exact hoh
        · simp only [hc, if_true, hf, hres]
          exact (writePhase_nonjoin_closes rate { s with filename := some nm } e hoh hw).1
      · simp only [hc, if_true, hf]
        exact (writePhase_nonjoin_closes rate s e hoh hw).1
    · simp only [hc, Bool.false_eq_true, if_false]
      exact hoh

/-- Witness for C8 as amended: a rate-1 join run of two fully-written frames
keeps the handle bookkeeping single-handled and ends, after the epilogue
`fclose`, with no open handle. -/
theorem C8_amended_witness :
    stateInv true (initLoopState (some "a.png")) ∧
    handleInv (runLoop 1 true (initLoopState (some "a.png")) [envOkWrite, envOkWrite]).1 ∧
    (finishRun true
      (runLoop 1 true (initLoopState (some "a.png")) [envOkWrite, envOkWrite]).1).1.openHandles =
      [] := by
  have hinv : stateInv true (initLoopState (some "a.png")) :=
    ⟨rfl, fun h => absurd h (by decide)⟩
  have h1 := (C8_amended 1 true (initLoopState (some "a.png")) envOkWrite
    [envOkWrite, envOkWrite] 0).2.1 hinv
  have h2 := (C8_amended 1 true
    (runLoop 1 true (initLoopState (some "a.png")) [envOkWrite, envOkWrite]).1 envOkWrite
    [] 0).2.2.2.1 h1
  exact ⟨hinv, h1, h2⟩

end Screenshot
